import Mathlib

/-!
A verification development for the draft client core: the `rpc` streaming
client (`UpBuild` / `up_build` / `UpStream` / `up_stream` in the client
implementation file) and the `cmdline` progress multiplexer
(`Display` / `progress` / `Stop` in `pkg/cmdline/cmdline.go`).

The Go code is shallowly embedded.  Purely sequential code becomes Lean
functions.  The concurrent operations become explicit transition systems:
a configuration records each goroutine's program location together with the
contents and closed-flags of every channel, and a successor function
enumerates the configurations reachable in one scheduler step.  Properties
of concrete scenarios are settled by computing the full reachable set of
configurations (the systems are finite for a fixed network script) and
deciding the property on every member.

For the `Display` multiplexer, whose interesting claims quantify over all
input sequences, we additionally fix one legal schedule — the synchronous
schedule in which each per-stage renderer goroutine runs to quiescence
between consecutive input messages (legal because the renderer polls its
channels far faster than network messages arrive) — and embed the code as a
deterministic fold under that schedule.
-/

namespace DraftRpc

/-- Status codes of `rpc.UpSummary_StatusCode`: `PENDING=0, SUCCESS=1, FAILURE=2`. -/
inductive StatusCode where
  | PENDING
  | SUCCESS
  | FAILURE
deriving DecidableEq, Repr

/-- `rpc.UpSummary`: a stage descriptor plus a status code. -/
structure UpSummary where
  stageDesc : String
  statusCode : StatusCode
deriving DecidableEq, Repr

/-- `rpc.UpMessage`: a tagged envelope whose payload is either an
`UpRequest` (client→server) or an `UpSummary` (server→client). -/
inductive UpMessage where
  | upRequest
  | upSummary (s : UpSummary)
deriving DecidableEq, Repr

/-- `msg.GetUpSummary()`: the summary payload, or `none` (Go `nil`) when the
envelope holds a different variant. -/
def UpMessage.GetUpSummary : UpMessage → Option UpSummary
  | .upRequest => none
  | .upSummary s => some s

/-- A status code is terminal when it is `SUCCESS` or `FAILURE`. -/
def StatusCode.isTerminal : StatusCode → Bool
  | .PENDING => false
  | .SUCCESS => true
  | .FAILURE => true

end DraftRpc

namespace Cmdline

open DraftRpc

/-!
## The `cmdline` struct and `Stop` (cmdline.go lines 24–68)

`cmdline` holds a `done chan struct{}`, a `sync.Once` guard and an `err`
field.  `Stop` runs `close(cli.done)` under `once.Do` and returns `cli.err`.
We model the channel by its closed flag; `close` on an already-closed Go
channel panics, which we surface as `Except.error`.
-/

/-- The fields of `cmdline` relevant to `Stop`: the `done` channel's closed
flag, the `sync.Once` state, and the stored `err`. -/
structure CmdlineState where
  doneClosed : Bool
  onceDone : Bool
  err : Option String
deriving DecidableEq, Repr

/-- Go `close(ch)`: panics ("close of closed channel") when the channel is
already closed, otherwise marks it closed. -/
def closeChan (closed : Bool) : Except String Bool :=
  if closed then .error "close of closed channel" else .ok true

/-- `cmdline.Stop` (cmdline.go lines 63–68): `once.Do(func(){ close(done) })`
then `return cli.err`.  The result pairs the updated state with the returned
error; a `.error` outcome would be a runtime panic. -/
def Stop (cli : CmdlineState) : Except String (CmdlineState × Option String) :=
  if cli.onceDone then
    .ok (cli, cli.err)
  else
    match closeChan cli.doneClosed with
    | .error e => .error e
    | .ok b => .ok ({ cli with onceDone := true, doneClosed := b }, cli.err)

/-- Iterate `Stop` `n` times from a state, collecting the returned error of
each call; stops early (with `.error`) if any call panics. -/
def stopIter : Nat → CmdlineState → Except String (CmdlineState × List (Option String))
  | 0, cli => .ok (cli, [])
  | n + 1, cli =>
    match Stop cli with
    | .error e => .error e
    | .ok (cli', r) =>
      match stopIter n cli' with
      | .error e => .error e
      | .ok (cli'', rs) => .ok (cli'', r :: rs)

/-- The state of `cli.done` after `Init` (cmdline.go line 41): a fresh, open
channel with the `once` not yet fired. -/
def initState (e : Option String) : CmdlineState :=
  { doneClosed := false, onceDone := false, err := e }

end Cmdline

/-- After the first `Stop`, the state is fixed (`done` closed, once fired) and
every further call just returns the stored error. -/
theorem Cmdline.stopIter_fixed (e : Option String) (n : Nat) :
    Cmdline.stopIter n { doneClosed := true, onceDone := true, err := e }
      = .ok ({ doneClosed := true, onceDone := true, err := e }, List.replicate n e) := by
  induction n with
  | zero => rfl
  | succ k ih => simp [Cmdline.stopIter, Cmdline.Stop, ih, List.replicate]

/-- C10: signaling `Stop` any number of times from a freshly initialized
`cmdline` never panics and never double-closes the `done` channel: after the
first call the channel is closed (exactly once — `closeChan` is attempted only
while `onceDone` is false, and `onceDone` is set by the first call), and every
call returns the same stored error value `e`. -/
theorem c10_stop_idempotent (e : Option String) (n : Nat) (h : 0 < n) :
    ∃ cli' rs, Cmdline.stopIter n (Cmdline.initState e) = .ok (cli', rs) ∧
      cli'.doneClosed = true ∧ cli'.onceDone = true ∧
      rs = List.replicate n e := by
  obtain ⟨m, rfl⟩ : ∃ m, n = m + 1 := ⟨n - 1, (Nat.succ_pred_eq_of_pos h).symm⟩
  refine ⟨{ doneClosed := true, onceDone := true, err := e }, List.replicate (m + 1) e, ?_, rfl, rfl, rfl⟩
  simp [Cmdline.stopIter, Cmdline.Stop, Cmdline.initState, Cmdline.closeChan,
    Cmdline.stopIter_fixed, List.replicate]

/-- Witness for C10 at `e = some "boom"`, `n = 3`. -/
theorem c10_stop_idempotent_witness :
    0 < 3 ∧ ∃ cli' rs,
      Cmdline.stopIter 3 (Cmdline.initState (some "boom")) = .ok (cli', rs) ∧
      cli'.doneClosed = true ∧ cli'.onceDone = true ∧
      rs = List.replicate 3 (some "boom") :=
  ⟨by decide, c10_stop_idempotent (some "boom") 3 (by decide)⟩

namespace Cmdline

open DraftRpc

/-!
## The `Display` multiplexer (cmdline.go lines 73–146)

`Display` loops over the `summaries` channel.  For a summary whose
`StageDesc` is not in the `ongoing` map it creates a buffered channel,
stores it in the map, and spawns `progress` for that descriptor — the
summary's own `StatusCode` is *not* sent on the channel (lines 93–101).
For a descriptor already in the map, the code is forwarded on the stage's
channel (line 103).  When the input channel closes (or `cli.Done()` fires),
the deferred block closes every remaining stage channel, stops the cli and
waits on the `WaitGroup` (lines 80–86).

`progress`'s inner goroutine (lines 114–131) receives codes: `SUCCESS`
prints a `passStr` line and returns, `FAILURE` prints a `failStr` line and
returns, anything else (`PENDING`) loops.  When it returns, the spawning
closure runs `delete(ongoing, desc)` and `wg.Done()` (lines 99–100) — note
that this `delete` executes on the renderer goroutine, not the main loop.

We embed the code under the synchronous schedule: each renderer goroutine
runs to quiescence between consecutive input messages (a legal interleaving:
the renderer polls its channels every ≤50ms).  Under this schedule a
forwarded terminal code is consumed at once: the line is printed, the map
entry deleted and the task joined before the next summary is processed.
-/

/-- The `switch code` of `progress`'s inner goroutine (lines 118–126):
`SUCCESS ↦ some true` (a `passStr` final line), `FAILURE ↦ some false`
(a `failStr` final line), `PENDING ↦ none` (keep animating). -/
def rendererOnCode : StatusCode → Option Bool
  | .SUCCESS => some true
  | .FAILURE => some false
  | .PENDING => none

/-- Which goroutine performed a mutation of the `ongoing` map. -/
inductive MapActor where
  | mainLoop
  | renderer (desc : String)
deriving DecidableEq, Repr

/-- A mutation of the `ongoing` map. -/
inductive MapOp where
  | insert (desc : String)
  | del (desc : String)
deriving DecidableEq, Repr

/-- A terminal line written to the sink: the stage descriptor and whether it
was a `passStr` (`ok = true`, line 121) or `failStr` (`ok = false`, line 124)
line. -/
structure TermLine where
  desc : String
  ok : Bool
deriving DecidableEq, Repr

/-- The observable state of one `Display` session: the keys of the `ongoing`
map, the terminal lines printed so far (in sink order), the codes forwarded
on stage channels (line 103 — under the synchronous schedule these are
exactly the codes delivered to renderers), a log of `ongoing`-map mutations
tagged with the goroutine that performed them, the channels closed by the
deferred block, and the count of spawned renderer tasks not yet joined. -/
structure DisplayState where
  ongoing : List String
  lines : List TermLine
  fwd : List (String × StatusCode)
  mapLog : List (MapActor × MapOp)
  closedAtShutdown : List String
  outstanding : Nat
deriving DecidableEq, Repr

/-- The state of `Display` after printing the banner, before the loop
(lines 77–79): empty map, nothing printed, no tasks. -/
def initDisplay : DisplayState :=
  { ongoing := [], lines := [], fwd := [], mapLog := [],
    closedAtShutdown := [], outstanding := 0 }

/-- One iteration of `Display`'s main loop on a received summary
(lines 89–104), with the affected renderer run to quiescence (synchronous
schedule).  Unknown descriptor: create the channel, record the map insert
(performed by the main loop, line 95), spawn the renderer (`wg.Add(1)`,
line 96) — the triggering summary's code is dropped.  Known descriptor:
forward the code (line 103); `PENDING` leaves the renderer animating, a
terminal code makes the renderer print its final line and exit, after which
its closure deletes the map entry (line 99, performed by the renderer
goroutine) and joins (`wg.Done()`, line 100). -/
def displayStep (st : DisplayState) (summary : UpSummary) : DisplayState :=
  if summary.stageDesc ∈ st.ongoing then
    let st' := { st with fwd := st.fwd ++ [(summary.stageDesc, summary.statusCode)] }
    match rendererOnCode summary.statusCode with
    | none => st'
    | some ok =>
      { st' with
        lines := st'.lines ++ [⟨summary.stageDesc, ok⟩],
        ongoing := st'.ongoing.erase summary.stageDesc,
        mapLog := st'.mapLog ++ [(MapActor.renderer summary.stageDesc, MapOp.del summary.stageDesc)],
        outstanding := st'.outstanding - 1 }
  else
    { st with
      ongoing := st.ongoing ++ [summary.stageDesc],
      mapLog := st.mapLog ++ [(MapActor.mainLoop, MapOp.insert summary.stageDesc)],
      outstanding := st.outstanding + 1 }

/-- The deferred block of `Display` (lines 80–86) under the synchronous
schedule: every remaining stage channel is closed; each remaining renderer
then exits through its `<-cli.Done()` arm — a closed `codes` channel yields
only the zero value `PENDING`, so no final line can be printed — deletes its
map entry (line 99, again on the renderer goroutine) and joins; `wg.Wait()`
returns once `outstanding = 0`. -/
def displayShutdown (st : DisplayState) : DisplayState :=
  { st with
    closedAtShutdown := st.ongoing,
    ongoing := [],
    mapLog := st.mapLog ++ st.ongoing.map (fun d => (MapActor.renderer d, MapOp.del d)),
    outstanding := st.outstanding - st.ongoing.length }

/-- `Display` run on the first `k` input summaries and then shut down:
the `k < length` case embeds `cli.Done()` firing (context cancellation)
mid-stream, the `k = length` case embeds the input channel closing. -/
def DisplayUpTo (k : Nat) (summaries : List UpSummary) : DisplayState :=
  displayShutdown (List.foldl displayStep initDisplay (summaries.take k))

/-- `Display` (cmdline.go lines 73–108) run to completion on a finite input
sequence, under the synchronous schedule. -/
def Display (summaries : List UpSummary) : DisplayState :=
  DisplayUpTo summaries.length summaries

/-- The codes received from the network for descriptor `d`, in order. -/
def receivedFor (input : List UpSummary) (d : String) : List StatusCode :=
  (input.filter (fun s => s.stageDesc == d)).map (fun s => s.statusCode)

/-- The codes forwarded on `d`'s stage channel (= delivered to `d`'s
renderer under the synchronous schedule), in order. -/
def deliveredFor (st : DisplayState) (d : String) : List StatusCode :=
  (st.fwd.filter (fun p => p.1 == d)).map (fun p => p.2)

/-- The terminal lines printed for descriptor `d`, in sink order. -/
def linesFor (st : DisplayState) (d : String) : List TermLine :=
  st.lines.filter (fun l => l.desc == d)

/-- How many times a `StageRenderState` was created for `d` (map inserts). -/
def insertsFor (st : DisplayState) (d : String) : Nat :=
  (st.mapLog.filter (fun p =>
    match p.2 with
    | MapOp.insert d' => d' == d
    | MapOp.del _ => false)).length

/-- A code list in which every terminal code is the last element: the
well-formed per-stage protocol (no message follows a stage's terminal
status). -/
def noAfterTerminal : List StatusCode → Bool
  | [] => true
  | c :: rest => if c.isTerminal then rest.isEmpty else noAfterTerminal rest

/-- Input sequences in which, for every descriptor, no message follows that
descriptor's terminal status code. -/
def wellFormed (input : List UpSummary) : Bool :=
  (input.map (fun s => s.stageDesc)).all (fun d => noAfterTerminal (receivedFor input d))

end Cmdline

/-- C1 counterexample: the spec's concrete scenario — feed
`{desc:"build", SUCCESS}`, `{desc:"deploy", PENDING}`, `{desc:"deploy",
FAILURE}`, then close the input.  The claim expects exactly two final lines
("build" success and "deploy" failure).  The code produces exactly one:
"build"'s terminal `SUCCESS` arrives as that descriptor's first message, so
it only creates the stage's channel and renderer — the code itself is never
forwarded (cmdline.go lines 93–101) — and "build" gets no terminal line even
though a terminal code was received for it before input termination. -/
theorem c1_scenario_one_line_only :
    (Cmdline.Display
        [⟨"build", .SUCCESS⟩, ⟨"deploy", .PENDING⟩, ⟨"deploy", .FAILURE⟩]).lines
      = [⟨"deploy", false⟩] ∧
    Cmdline.linesFor
        (Cmdline.Display
          [⟨"build", .SUCCESS⟩, ⟨"deploy", .PENDING⟩, ⟨"deploy", .FAILURE⟩]) "build"
      = [] ∧
    (DraftRpc.StatusCode.SUCCESS).isTerminal = true := by
  decide

/-- C5 counterexample: feed `{d,PENDING}, {d,SUCCESS}, {d,PENDING},
{d,FAILURE}`.  After `d` is finalized its renderer deletes the map entry
(cmdline.go line 99), so the third message recreates a fresh
`StageRenderState` for the same descriptor (a second map insert) and the
fourth message produces a second, duplicate terminal line for `d` —
finalization is not idempotent. -/
theorem c5_refinalized_after_deletion :
    (Cmdline.Display
        [⟨"d", .PENDING⟩, ⟨"d", .SUCCESS⟩, ⟨"d", .PENDING⟩, ⟨"d", .FAILURE⟩]).lines
      = [⟨"d", true⟩, ⟨"d", false⟩] ∧
    Cmdline.insertsFor
        (Cmdline.Display
          [⟨"d", .PENDING⟩, ⟨"d", .SUCCESS⟩, ⟨"d", .PENDING⟩, ⟨"d", .FAILURE⟩]) "d"
      = 2 := by
  decide

/-- C7 counterexample: feed the single message `{s, SUCCESS}`.  The network
delivered the code sequence `[SUCCESS]` for descriptor `s`, but the sequence
delivered to `s`'s renderer is empty — the message that first sights a
descriptor has its status code dropped (cmdline.go lines 93–101), so
delivery to the renderer loses the first code of every stage. -/
theorem c7_first_code_lost :
    Cmdline.receivedFor [⟨"s", .SUCCESS⟩] "s" = [DraftRpc.StatusCode.SUCCESS] ∧
    Cmdline.deliveredFor (Cmdline.Display [⟨"s", .SUCCESS⟩]) "s" = [] := by
  decide

namespace Cmdline

open DraftRpc

/-!
### Per-descriptor projection

`displayStep` only touches the state components belonging to the incoming
summary's descriptor, so the run of the whole multiplexer projects, for each
descriptor `d`, onto a small machine driven by the codes received for `d`.
-/

/-- The view of one descriptor's state: whether `d` is currently a key of
the `ongoing` map, the terminal lines printed for `d`, the codes delivered
to `d`'s renderer, and how many times a state was created for `d`. -/
structure StageView where
  inMap : Bool
  linesD : List TermLine
  delivD : List StatusCode
  insD : Nat
deriving DecidableEq, Repr

/-- Project the multiplexer state onto descriptor `d`. -/
def proj (st : DisplayState) (d : String) : StageView :=
  { inMap := decide (d ∈ st.ongoing), linesD := linesFor st d,
    delivD := deliveredFor st d, insD := insertsFor st d }

/-- The per-descriptor machine: how one received code for `d` changes `d`'s
view.  Mirrors `displayStep` restricted to descriptor `d`. -/
def stepD (d : String) (v : StageView) (c : StatusCode) : StageView :=
  if v.inMap then
    match rendererOnCode c with
    | none => { v with delivD := v.delivD ++ [c] }
    | some ok =>
      { inMap := false, linesD := v.linesD ++ [⟨d, ok⟩],
        delivD := v.delivD ++ [c], insD := v.insD }
  else
    { v with inMap := true, insD := v.insD + 1 }

theorem receivedFor_nil (d : String) : receivedFor [] d = [] := rfl

theorem receivedFor_cons (s : UpSummary) (rest : List UpSummary) (d : String) :
    receivedFor (s :: rest) d
      = if s.stageDesc == d then s.statusCode :: receivedFor rest d
        else receivedFor rest d := by
  by_cases h : s.stageDesc == d <;> simp [receivedFor, List.filter, h]

theorem receivedFor_append (l₁ l₂ : List UpSummary) (d : String) :
    receivedFor (l₁ ++ l₂) d = receivedFor l₁ d ++ receivedFor l₂ d := by
  simp [receivedFor, List.filter_append]

/-- `displayStep` preserves the no-duplicate-keys property of the map. -/
theorem nodup_displayStep (st : DisplayState) (s : UpSummary)
    (h : st.ongoing.Nodup) : (displayStep st s).ongoing.Nodup := by
  unfold displayStep
  by_cases hm : s.stageDesc ∈ st.ongoing
  · simp only [hm, if_true]
    cases rendererOnCode s.statusCode with
    | none => simpa using h
    | some ok => simpa using h.erase _
  · simp only [hm, if_false]
    simp only [List.nodup_append]
    exact ⟨h, List.nodup_singleton _, by simpa [List.disjoint_singleton] using hm⟩

/-- The wait-group counter equals the number of live map keys. -/
theorem outstanding_displayStep (st : DisplayState) (s : UpSummary)
    (h : st.outstanding = st.ongoing.length) :
    (displayStep st s).outstanding = (displayStep st s).ongoing.length := by
  unfold displayStep
  by_cases hm : s.stageDesc ∈ st.ongoing
  · simp only [hm, if_true]
    cases rendererOnCode s.statusCode with
    | none => simpa using h
    | some ok => simp [h, List.length_erase_of_mem hm]
  · simp [hm, h]

/-- One multiplexer step projects onto the per-descriptor machine: a summary
for `d` drives `d`'s view through `stepD`, a summary for another descriptor
leaves `d`'s view unchanged. -/
theorem proj_displayStep (st : DisplayState) (s : UpSummary) (d : String)
    (h : st.ongoing.Nodup) :
    proj (displayStep st s) d
      = if s.stageDesc = d then stepD d (proj st d) s.statusCode
        else proj st d := by
  by_cases hd : s.stageDesc = d
  · subst hd
    by_cases hm : s.stageDesc ∈ st.ongoing
    · cases hc : rendererOnCode s.statusCode with
      | none =>
        simp [displayStep, hm, hc, proj, stepD, linesFor, deliveredFor,
          insertsFor, List.filter_append, List.filter]
      | some ok =>
        simp [displayStep, hm, hc, proj, stepD, linesFor, deliveredFor,
          insertsFor, List.filter_append, List.filter, h.mem_erase_iff]
    · simp [displayStep, hm, proj, stepD, linesFor, deliveredFor,
        insertsFor, List.filter_append, List.filter]
  · have hb : (s.stageDesc == d) = false := by
      simpa using hd
    have hne : d ≠ s.stageDesc := fun hx => hd hx.symm
    by_cases hm : s.stageDesc ∈ st.ongoing
    · cases hc : rendererOnCode s.statusCode with
      | none =>
        simp [displayStep, hm, hc, proj, stepD, linesFor, deliveredFor,
          insertsFor, List.filter_append, List.filter, hd, hb]
      | some ok =>
        simp [displayStep, hm, hc, proj, stepD, linesFor, deliveredFor,
          insertsFor, List.filter_append, List.filter, hd, hb,
          h.mem_erase_iff, hne]
    · simp [displayStep, hm, proj, stepD, linesFor, deliveredFor,
        insertsFor, List.filter_append, List.filter, hd, hb, hne]

/-- The whole run projects onto the per-descriptor machine driven by the
codes received for `d`. -/
theorem proj_foldl (input : List UpSummary) (st : DisplayState) (d : String)
    (h : st.ongoing.Nodup) :
    proj (List.foldl displayStep st input) d
      = List.foldl (stepD d) (proj st d) (receivedFor input d) := by
  induction input generalizing st with
  | nil => rfl
  | cons s rest ih =>
    rw [List.foldl_cons, receivedFor_cons,
      ih (displayStep st s) (nodup_displayStep st s h)]
    by_cases hd : s.stageDesc = d
    · simp [proj_displayStep st s d h, hd]
    · simp [proj_displayStep st s d h, hd,
        (by simpa using hd : ¬(s.stageDesc == d) = true)]

theorem nodup_outstanding_foldl (input : List UpSummary) (st : DisplayState)
    (h₁ : st.ongoing.Nodup) (h₂ : st.outstanding = st.ongoing.length) :
    (List.foldl displayStep st input).ongoing.Nodup ∧
      (List.foldl displayStep st input).outstanding
        = (List.foldl displayStep st input).ongoing.length := by
  induction input generalizing st with
  | nil => exact ⟨h₁, h₂⟩
  | cons s rest ih =>
    exact ih (displayStep st s) (nodup_displayStep st s h₁)
      (outstanding_displayStep st s h₂)

/-- A non-terminal code is `PENDING` and keeps the renderer animating. -/
theorem rendererOnCode_eq_none (c : StatusCode) (h : c.isTerminal = false) :
    rendererOnCode c = none := by
  cases c <;> simp_all [StatusCode.isTerminal, rendererOnCode]

/-- A terminal code makes the renderer print and exit. -/
theorem rendererOnCode_isTerminal (c : StatusCode) (b : Bool)
    (h : rendererOnCode c = some b) : c.isTerminal = true := by
  cases c <;> simp_all [StatusCode.isTerminal, rendererOnCode]

/-- The per-descriptor line constructor used by the renderer. -/
def lineOf (d : String) (c : StatusCode) : Option TermLine :=
  (rendererOnCode c).map (fun b => (⟨d, b⟩ : TermLine))

theorem filterMap_lineOf_nil (d : String) (l : List StatusCode)
    (h : l.all (fun c => !c.isTerminal) = true) :
    l.filterMap (lineOf d) = [] := by
  induction l with
  | nil => rfl
  | cons c rest ih =>
    simp only [List.all_cons, Bool.and_eq_true, Bool.not_eq_true'] at h
    simp [List.filterMap_cons, lineOf, rendererOnCode_eq_none c h.1, ih h.2]

theorem any_isTerminal_false (l : List StatusCode)
    (h : l.all (fun c => !c.isTerminal) = true) :
    l.any StatusCode.isTerminal = false := by
  induction l with
  | nil => rfl
  | cons c rest ih =>
    simp only [List.all_cons, Bool.and_eq_true, Bool.not_eq_true'] at h
    simp [h.1, ih h.2]

/-- While the renderer is animating, non-terminal codes are just delivered. -/
theorem foldl_stepD_pending (d : String) (L : List TermLine)
    (Dv : List StatusCode) (n : Nat) (codes : List StatusCode)
    (h : codes.all (fun c => !c.isTerminal) = true) :
    List.foldl (stepD d) ⟨true, L, Dv, n⟩ codes = ⟨true, L, Dv ++ codes, n⟩ := by
  induction codes generalizing Dv with
  | nil => simp
  | cons c rest ih =>
    simp only [List.all_cons, Bool.and_eq_true, Bool.not_eq_true'] at h
    rw [List.foldl_cons]
    have hstep : stepD d ⟨true, L, Dv, n⟩ c = ⟨true, L, Dv ++ [c], n⟩ := by
      simp [stepD, rendererOnCode_eq_none c h.1]
    rw [hstep, ih (Dv ++ [c]) h.2]
    simp

/-- Non-terminal codes followed by one terminal code: the renderer prints one
final line and exits. -/
theorem foldl_stepD_terminal (d : String) (L : List TermLine)
    (Dv : List StatusCode) (n : Nat) (pends : List StatusCode)
    (t : StatusCode) (b : Bool)
    (h : pends.all (fun c => !c.isTerminal) = true)
    (hb : rendererOnCode t = some b) :
    List.foldl (stepD d) ⟨true, L, Dv, n⟩ (pends ++ [t])
      = ⟨false, L ++ [⟨d, b⟩], Dv ++ pends ++ [t], n⟩ := by
  rw [List.foldl_append, foldl_stepD_pending d L Dv n pends h]
  simp [stepD, hb]

/-- Structure of a well-formed per-stage code sequence: either no terminal
code at all, or some non-terminal codes followed by exactly one terminal. -/
theorem noAfterTerminal_decomp (l : List StatusCode)
    (h : noAfterTerminal l = true) :
    l.all (fun c => !c.isTerminal) = true ∨
    ∃ pends t b, l = pends ++ [t] ∧
      pends.all (fun c => !c.isTerminal) = true ∧ rendererOnCode t = some b := by
  induction l with
  | nil => exact Or.inl rfl
  | cons c rest ih =>
    by_cases hc : c.isTerminal
    · have hrest : rest = [] := by
        have := h
        simp only [noAfterTerminal, hc, if_true, List.isEmpty_iff] at this
        exact this
      subst hrest
      have hb : ∃ b, rendererOnCode c = some b := by
        cases c <;> simp_all [rendererOnCode, StatusCode.isTerminal]
      obtain ⟨b, hb⟩ := hb
      exact Or.inr ⟨[], c, b, rfl, rfl, hb⟩
    · have hrest : noAfterTerminal rest = true := by
        have := h
        simp only [noAfterTerminal, hc, if_false] at this
        exact this
      have hcb : c.isTerminal = false := by simpa using hc
      rcases ih hrest with hall | ⟨pends, t, b, heq, hp, hb⟩
      · exact Or.inl (by simp [hcb, hall])
      · exact Or.inr ⟨c :: pends, t, b, by simp [heq], by simp [hcb, hp], hb⟩

/-- Master characterization of one descriptor's run under the well-formed
protocol: the first received code only opens the stage (it is dropped), the
remaining codes are delivered in order, the lines printed for the stage are
the final lines of the terminal codes among the delivered ones, exactly one
state is created, and the stage is still live at the end iff it received
some code but no terminal after the first. -/
theorem stepD_run_spec (d : String) (codes : List StatusCode)
    (h : noAfterTerminal codes = true) :
    (List.foldl (stepD d) ⟨false, [], [], 0⟩ codes).delivD = codes.drop 1 ∧
    (List.foldl (stepD d) ⟨false, [], [], 0⟩ codes).linesD
      = (codes.drop 1).filterMap (lineOf d) ∧
    (List.foldl (stepD d) ⟨false, [], [], 0⟩ codes).insD
      = min codes.length 1 ∧
    (List.foldl (stepD d) ⟨false, [], [], 0⟩ codes).inMap
      = (!codes.isEmpty && !(codes.drop 1).any StatusCode.isTerminal) := by
  cases codes with
  | nil => simp
  | cons c rest =>
    have hfirst : stepD d ⟨false, [], [], 0⟩ c = ⟨true, [], [], 1⟩ := by
      simp [stepD]
    rw [List.foldl_cons, hfirst]
    by_cases hc : c.isTerminal
    · have hrest : rest = [] := by
        have := h
        simp only [noAfterTerminal, hc, if_true, List.isEmpty_iff] at this
        exact this
      subst hrest
      simp
    · have hrest : noAfterTerminal rest = true := by
        have := h
        simp only [noAfterTerminal, hc, if_false] at this
        exact this
      rcases noAfterTerminal_decomp rest hrest with hall | ⟨pends, t, b, heq, hp, hb⟩
      · rw [foldl_stepD_pending d [] [] 1 rest hall]
        simp [filterMap_lineOf_nil d rest hall, any_isTerminal_false rest hall]
      · subst heq
        rw [foldl_stepD_terminal d [] [] 1 pends t b hp hb]
        refine ⟨by simp, ?_, by simp, ?_⟩
        · simp [List.filterMap_append, filterMap_lineOf_nil d pends hp,
            List.filterMap_cons, lineOf, hb]
        · simp [rendererOnCode_isTerminal t b hb]

/-- Every descriptor of a well-formed input has a well-formed code sequence. -/
theorem wellFormed_noAfterTerminal (input : List UpSummary)
    (h : wellFormed input = true) (d : String) :
    noAfterTerminal (receivedFor input d) = true := by
  by_cases hd : d ∈ input.map (fun s => s.stageDesc)
  · exact List.all_eq_true.mp h d hd
  · have hnil : receivedFor input d = [] := by
      have : ∀ s ∈ input, ¬((fun s => s.stageDesc == d) s = true) := by
        intro s hs hsd
        exact hd (by
          simp only [List.mem_map]
          exact ⟨s, hs, by simpa using hsd⟩)
      simp [receivedFor, List.filter_eq_nil_iff.mpr this]
    rw [hnil]
    rfl

/-- Well-formedness of per-stage code lists is closed under prefixes. -/
theorem noAfterTerminal_append_left (l u : List StatusCode)
    (h : noAfterTerminal (l ++ u) = true) : noAfterTerminal l = true := by
  induction l with
  | nil => rfl
  | cons c rest ih =>
    by_cases hc : c.isTerminal
    · have : (rest ++ u).isEmpty = true := by
        have := h
        simp only [List.cons_append, noAfterTerminal, hc, if_true] at this
        exact this
      have hrest : rest = [] := by
        rcases List.append_eq_nil.mp (List.isEmpty_iff.mp this) with ⟨h1, _⟩
        exact h1
      subst hrest
      simp [noAfterTerminal, hc]
    · have hrec : noAfterTerminal (rest ++ u) = true := by
        have := h
        simp only [List.cons_append, noAfterTerminal, hc, if_false] at this
        exact this
      simp [noAfterTerminal, hc, ih hrec]

/-- The codes received within a truncated input form a prefix of the codes
received within the whole input. -/
theorem receivedFor_take (input : List UpSummary) (k : Nat) (d : String) :
    receivedFor input d
      = receivedFor (input.take k) d ++ receivedFor (input.drop k) d := by
  rw [← receivedFor_append, List.take_append_drop]

/-- The projection of the initial state. -/
theorem proj_initDisplay (d : String) :
    proj initDisplay d = ⟨false, [], [], 0⟩ := rfl

/-- The deferred shutdown block neither prints lines nor forwards codes nor
creates render states. -/
theorem shutdown_preserves (st : DisplayState) (d : String) :
    linesFor (displayShutdown st) d = linesFor st d ∧
    deliveredFor (displayShutdown st) d = deliveredFor st d ∧
    insertsFor (displayShutdown st) d = insertsFor st d := by
  refine ⟨rfl, rfl, ?_⟩
  simp only [insertsFor, displayShutdown, List.filter_append, List.length_append]
  have : (st.ongoing.map (fun d' => (MapActor.renderer d', MapOp.del d'))).filter
      (fun p =>
        match p.2 with
        | MapOp.insert d' => d' == d
        | MapOp.del _ => false) = [] := by
    induction st.ongoing with
    | nil => rfl
    | cons x rest ih => simp [ih]
  simp [this]

end Cmdline

namespace Cmdline

open DraftRpc

theorem noAfterTerminal_tail (codes : List StatusCode)
    (h : noAfterTerminal codes = true) :
    noAfterTerminal (codes.drop 1) = true := by
  cases codes with
  | nil => rfl
  | cons c rest =>
    by_cases hc : c.isTerminal
    · have : rest = [] := by
        have := h
        simp only [noAfterTerminal, hc, if_true, List.isEmpty_iff] at this
        exact this
      subst this
      rfl
    · have := h
      simp only [noAfterTerminal, hc, if_false] at this
      simpa using this

theorem all_not_of_any_false (l : List StatusCode)
    (h : l.any StatusCode.isTerminal = false) :
    l.all (fun c => !c.isTerminal) = true := by
  rw [List.any_eq_false] at h
  rw [List.all_eq_true]
  intro c hc
  simpa using h c hc

/-- A well-formed delivered sequence yields exactly one final line when it
holds a terminal code and none otherwise. -/
theorem length_filterMap_lineOf (d : String) (l : List StatusCode)
    (h : noAfterTerminal l = true) :
    ((l.filterMap (lineOf d)).length = 1
      ↔ l.any StatusCode.isTerminal = true) ∧
    (l.filterMap (lineOf d)).length ≤ 1 := by
  rcases noAfterTerminal_decomp l h with hall | ⟨pends, t, b, heq, hp, hb⟩
  · rw [filterMap_lineOf_nil d l hall, any_isTerminal_false l hall]
    simp
  · subst heq
    rw [List.filterMap_append, filterMap_lineOf_nil d pends hp]
    simp [List.filterMap_cons, lineOf, hb, rendererOnCode_isTerminal t b hb]

/-- The main pipeline equation: the view of descriptor `d` after the whole
run is the per-descriptor machine run on `d`'s received codes. -/
theorem proj_Display (input : List UpSummary) (d : String) :
    proj (List.foldl displayStep initDisplay input) d
      = List.foldl (stepD d) ⟨false, [], [], 0⟩ (receivedFor input d) := by
  rw [proj_foldl input initDisplay d List.nodup_nil, proj_initDisplay]

theorem Display_eq (input : List UpSummary) :
    Display input = displayShutdown (List.foldl displayStep initDisplay input) := by
  unfold Display DisplayUpTo
  rw [List.take_length]

end Cmdline

/-- C9: on input `{build,PENDING}, {build,SUCCESS}` the `ongoing` map is
mutated by the renderer goroutine: the closure spawned at cmdline.go
lines 97–101 executes `delete(ongoing, desc)` on the renderer task while the
main loop continues to read and write the same map — an unsynchronized
concurrent map access, contradicting the claim that only the main loop ever
mutates the map. -/
theorem c9_renderer_mutates_map :
    (Cmdline.MapActor.renderer "build", Cmdline.MapOp.del "build")
      ∈ (Cmdline.Display [⟨"build", .PENDING⟩, ⟨"build", .SUCCESS⟩]).mapLog := by
  decide

/-- C1 (amended): under the well-formed per-stage protocol — no message for a
descriptor follows that descriptor's terminal status code — each distinct
`stageDescriptor` produces exactly one terminal output line iff a terminal
statusCode was received for it *strictly after its first message*.  The
first message of each descriptor only opens the stage and its status code is
discarded (cmdline.go lines 93–101); every later code is delivered and the
terminal one among them prints exactly one final line marked according to
the code. -/
theorem c1_amended_terminal_line_iff (input : List DraftRpc.UpSummary)
    (d : String) (h : Cmdline.wellFormed input = true) :
    Cmdline.linesFor (Cmdline.Display input) d
      = ((Cmdline.receivedFor input d).drop 1).filterMap (Cmdline.lineOf d) ∧
    ((Cmdline.linesFor (Cmdline.Display input) d).length = 1 ↔
      ((Cmdline.receivedFor input d).drop 1).any DraftRpc.StatusCode.isTerminal
        = true) := by
  have hwf := Cmdline.wellFormed_noAfterTerminal input h d
  have hlines : Cmdline.linesFor (Cmdline.Display input) d
      = (List.foldl (Cmdline.stepD d) ⟨false, [], [], 0⟩
          (Cmdline.receivedFor input d)).linesD := by
    rw [Cmdline.Display_eq input]
    rw [(Cmdline.shutdown_preserves
      (List.foldl Cmdline.displayStep Cmdline.initDisplay input) d).1]
    rw [show Cmdline.linesFor
        (List.foldl Cmdline.displayStep Cmdline.initDisplay input) d
      = (Cmdline.proj (List.foldl Cmdline.displayStep Cmdline.initDisplay input) d).linesD
      from rfl]
    rw [Cmdline.proj_Display input d]
  obtain ⟨-, hspec, -, -⟩ := Cmdline.stepD_run_spec d (Cmdline.receivedFor input d) hwf
  have htail := Cmdline.noAfterTerminal_tail (Cmdline.receivedFor input d) hwf
  obtain ⟨hiff, -⟩ :=
    Cmdline.length_filterMap_lineOf d ((Cmdline.receivedFor input d).drop 1) htail
  rw [hlines, hspec]
  exact ⟨rfl, hiff⟩

/-- Witness for C1 (amended) at the spec's scenario input and `d = "deploy"`:
"deploy"'s terminal `FAILURE` arrives after its first message, so exactly one
final failure line is printed for it. -/
theorem c1_amended_terminal_line_iff_witness :
    Cmdline.wellFormed
        [⟨"build", .SUCCESS⟩, ⟨"deploy", .PENDING⟩, ⟨"deploy", .FAILURE⟩] = true ∧
    (Cmdline.linesFor
        (Cmdline.Display
          [⟨"build", .SUCCESS⟩, ⟨"deploy", .PENDING⟩, ⟨"deploy", .FAILURE⟩]) "deploy"
      = ((Cmdline.receivedFor
            [⟨"build", .SUCCESS⟩, ⟨"deploy", .PENDING⟩, ⟨"deploy", .FAILURE⟩]
            "deploy").drop 1).filterMap (Cmdline.lineOf "deploy") ∧
    ((Cmdline.linesFor
        (Cmdline.Display
          [⟨"build", .SUCCESS⟩, ⟨"deploy", .PENDING⟩, ⟨"deploy", .FAILURE⟩])
        "deploy").length = 1 ↔
      ((Cmdline.receivedFor
          [⟨"build", .SUCCESS⟩, ⟨"deploy", .PENDING⟩, ⟨"deploy", .FAILURE⟩]
          "deploy").drop 1).any DraftRpc.StatusCode.isTerminal = true)) :=
  ⟨by decide,
    c1_amended_terminal_line_iff
      [⟨"build", .SUCCESS⟩, ⟨"deploy", .PENDING⟩, ⟨"deploy", .FAILURE⟩]
      "deploy" (by decide)⟩

/-- C5 (amended): within one display session, as long as no message for a
descriptor follows that descriptor's terminal code, each descriptor's render
state is created at most once and finalized at most once (at most one
terminal line).  Without that proviso the guarantee fails: after the
finished state is deleted from the map by its renderer, a later message for
the same descriptor recreates a fresh `StageRenderState` and can produce a
second terminal line (see the counterexample). -/
theorem c5_amended_single_finalization (input : List DraftRpc.UpSummary)
    (d : String) (h : Cmdline.wellFormed input = true) :
    Cmdline.insertsFor (Cmdline.Display input) d ≤ 1 ∧
    (Cmdline.linesFor (Cmdline.Display input) d).length ≤ 1 := by
  have hwf := Cmdline.wellFormed_noAfterTerminal input h d
  have hpre := Cmdline.shutdown_preserves
    (List.foldl Cmdline.displayStep Cmdline.initDisplay input) d
  obtain ⟨-, hspec, hins, -⟩ :=
    Cmdline.stepD_run_spec d (Cmdline.receivedFor input d) hwf
  constructor
  · rw [Cmdline.Display_eq input, hpre.2.2]
    rw [show Cmdline.insertsFor
        (List.foldl Cmdline.displayStep Cmdline.initDisplay input) d
      = (Cmdline.proj (List.foldl Cmdline.displayStep Cmdline.initDisplay input) d).insD
      from rfl]
    rw [Cmdline.proj_Display input d, hins]
    exact Nat.min_le_right _ _
  · rw [Cmdline.Display_eq input, hpre.1]
    rw [show Cmdline.linesFor
        (List.foldl Cmdline.displayStep Cmdline.initDisplay input) d
      = (Cmdline.proj (List.foldl Cmdline.displayStep Cmdline.initDisplay input) d).linesD
      from rfl]
    rw [Cmdline.proj_Display input d, hspec]
    exact (Cmdline.length_filterMap_lineOf d _
      (Cmdline.noAfterTerminal_tail _ hwf)).2

/-- Witness for C5 (amended) at input `{x,PENDING}, {x,SUCCESS}` and `d = "x"`. -/
theorem c5_amended_single_finalization_witness :
    Cmdline.wellFormed [⟨"x", .PENDING⟩, ⟨"x", .SUCCESS⟩] = true ∧
    (Cmdline.insertsFor (Cmdline.Display [⟨"x", .PENDING⟩, ⟨"x", .SUCCESS⟩]) "x" ≤ 1 ∧
    (Cmdline.linesFor (Cmdline.Display [⟨"x", .PENDING⟩, ⟨"x", .SUCCESS⟩]) "x").length ≤ 1) :=
  ⟨by decide,
    c5_amended_single_finalization [⟨"x", .PENDING⟩, ⟨"x", .SUCCESS⟩] "x" (by decide)⟩

/-- C7 (amended): under the well-formed per-stage protocol, the sequence of
status codes delivered to a stage's renderer equals, in order, the sequence
received from the network for that descriptor *with its first element
removed*: the message that first sights a descriptor only opens the stage
and its code is never sent on the stage channel (cmdline.go lines 93–101);
every later code is forwarded on that stage's FIFO channel, so delivery
preserves order with no further loss. -/
theorem c7_amended_delivery_order (input : List DraftRpc.UpSummary)
    (d : String) (h : Cmdline.wellFormed input = true) :
    Cmdline.deliveredFor (Cmdline.Display input) d
      = (Cmdline.receivedFor input d).drop 1 := by
  have hwf := Cmdline.wellFormed_noAfterTerminal input h d
  obtain ⟨hdeliv, -, -, -⟩ :=
    Cmdline.stepD_run_spec d (Cmdline.receivedFor input d) hwf
  rw [Cmdline.Display_eq input,
    (Cmdline.shutdown_preserves
      (List.foldl Cmdline.displayStep Cmdline.initDisplay input) d).2.1]
  rw [show Cmdline.deliveredFor
      (List.foldl Cmdline.displayStep Cmdline.initDisplay input) d
    = (Cmdline.proj (List.foldl Cmdline.displayStep Cmdline.initDisplay input) d).delivD
    from rfl]
  rw [Cmdline.proj_Display input d, hdeliv]

/-- Witness for C7 (amended) at input `{w,PENDING}, {w,FAILURE}` and `d = "w"`. -/
theorem c7_amended_delivery_order_witness :
    Cmdline.wellFormed [⟨"w", .PENDING⟩, ⟨"w", .FAILURE⟩] = true ∧
    Cmdline.deliveredFor (Cmdline.Display [⟨"w", .PENDING⟩, ⟨"w", .FAILURE⟩]) "w"
      = (Cmdline.receivedFor [⟨"w", .PENDING⟩, ⟨"w", .FAILURE⟩] "w").drop 1 :=
  ⟨by decide,
    c7_amended_delivery_order [⟨"w", .PENDING⟩, ⟨"w", .FAILURE⟩] "w" (by decide)⟩

/-- C6: whenever the input ends (take `k = input.length`) or the context is
canceled mid-stream (`k < input.length` — the `<-cli.Done()` arm and the
deferred block take the same path), `Display` closes every still-active
stage's update channel (the channels closed at shutdown are exactly the
still-`ongoing` descriptors), the shutdown emits no output at all (the lines
after shutdown equal the lines before it — a closed `codes` channel yields
only the zero value `PENDING`, never a terminal code), every still-pending
stage has no terminal line, and `wg.Wait()` returns with all renderer tasks
joined (`outstanding = 0`) — so the sink sees no output from a goroutine
after `Display` returns. -/
theorem c6_shutdown_no_lines_all_joined (input : List DraftRpc.UpSummary)
    (k : Nat) (h : Cmdline.wellFormed input = true) :
    (Cmdline.DisplayUpTo k input).closedAtShutdown
      = (List.foldl Cmdline.displayStep Cmdline.initDisplay (input.take k)).ongoing ∧
    (Cmdline.DisplayUpTo k input).lines
      = (List.foldl Cmdline.displayStep Cmdline.initDisplay (input.take k)).lines ∧
    (Cmdline.DisplayUpTo k input).outstanding = 0 ∧
    ∀ d ∈ (Cmdline.DisplayUpTo k input).closedAtShutdown,
      Cmdline.linesFor (Cmdline.DisplayUpTo k input) d = [] := by
  have hinv := Cmdline.nodup_outstanding_foldl (input.take k)
    Cmdline.initDisplay List.nodup_nil rfl
  refine ⟨rfl, rfl, ?_, ?_⟩
  · show (List.foldl Cmdline.displayStep Cmdline.initDisplay (input.take k)).outstanding
      - (List.foldl Cmdline.displayStep Cmdline.initDisplay (input.take k)).ongoing.length = 0
    rw [hinv.2]
    exact Nat.sub_self _
  · intro d hd
    have hdm : d ∈ (List.foldl Cmdline.displayStep Cmdline.initDisplay (input.take k)).ongoing := hd
    have hwfk : Cmdline.noAfterTerminal (Cmdline.receivedFor (input.take k) d) = true := by
      apply Cmdline.noAfterTerminal_append_left _ (Cmdline.receivedFor (input.drop k) d)
      rw [← Cmdline.receivedFor_take input k d]
      exact Cmdline.wellFormed_noAfterTerminal input h d
    obtain ⟨-, hspec, -, hmap⟩ :=
      Cmdline.stepD_run_spec d (Cmdline.receivedFor (input.take k) d) hwfk
    have hproj := Cmdline.proj_Display (input.take k) d
    have hin : (Cmdline.proj
        (List.foldl Cmdline.displayStep Cmdline.initDisplay (input.take k)) d).inMap
        = true := by
      simp [Cmdline.proj, hdm]
    rw [hproj, hmap] at hin
    have hany : ((Cmdline.receivedFor (input.take k) d).drop 1).any
        DraftRpc.StatusCode.isTerminal = false := by
      rcases Bool.and_eq_true_iff.mp hin with ⟨-, h2⟩
      simpa using h2
    have hlines : Cmdline.linesFor (Cmdline.DisplayUpTo k input) d
        = (Cmdline.proj
            (List.foldl Cmdline.displayStep Cmdline.initDisplay (input.take k)) d).linesD :=
      (Cmdline.shutdown_preserves _ d).1
    rw [hlines, hproj, hspec]
    exact Cmdline.filterMap_lineOf_nil d _ (Cmdline.all_not_of_any_false _ hany)

/-- Witness for C6 at input `{a,PENDING}, {a,SUCCESS}` canceled after the
first message (`k = 1`): stage `a` is still pending, its channel is closed
at shutdown and it never gets a terminal line. -/
theorem c6_shutdown_no_lines_all_joined_witness :
    Cmdline.wellFormed [⟨"a", .PENDING⟩, ⟨"a", .SUCCESS⟩] = true ∧
    ((Cmdline.DisplayUpTo 1 [⟨"a", .PENDING⟩, ⟨"a", .SUCCESS⟩]).closedAtShutdown
      = (List.foldl Cmdline.displayStep Cmdline.initDisplay
          ([⟨"a", .PENDING⟩, ⟨"a", .SUCCESS⟩].take 1)).ongoing ∧
    (Cmdline.DisplayUpTo 1 [⟨"a", .PENDING⟩, ⟨"a", .SUCCESS⟩]).lines
      = (List.foldl Cmdline.displayStep Cmdline.initDisplay
          ([⟨"a", .PENDING⟩, ⟨"a", .SUCCESS⟩].take 1)).lines ∧
    (Cmdline.DisplayUpTo 1 [⟨"a", .PENDING⟩, ⟨"a", .SUCCESS⟩]).outstanding = 0 ∧
    ∀ d ∈ (Cmdline.DisplayUpTo 1 [⟨"a", .PENDING⟩, ⟨"a", .SUCCESS⟩]).closedAtShutdown,
      Cmdline.linesFor (Cmdline.DisplayUpTo 1 [⟨"a", .PENDING⟩, ⟨"a", .SUCCESS⟩]) d = []) :=
  ⟨by decide,
    c6_shutdown_no_lines_all_joined [⟨"a", .PENDING⟩, ⟨"a", .SUCCESS⟩] 1 (by decide)⟩

namespace DraftRpc

/-!
## The `UpBuild` client operation (client implementation, lines 44–80 and 105–121)

`UpBuild` spawns a goroutine running `up_build` (the Recv loop) whose
results flow through `msgc` (buffered, capacity 2) and `errc` (unbuffered);
the main loop multiplexes the two with a `select`, forwarding summaries to
`outc` and returning the first error.  We embed the pair of goroutines as a
finite transition system: a configuration holds each goroutine's location
and the channel states, and `upBuildNext` enumerates every configuration
reachable in one scheduler step.  The server's behaviour is a script: the
messages the stream delivers, then end-of-stream (`io.EOF`) or a transport
error; the initial `rpc.UpBuild` call may also fail.  `outc` is modelled as
a log (the caller keeps draining it).
-/

/-- A server-side script for one `UpBuild` call: an optional error from the
initial `rpc.UpBuild` call (line 106), the messages `Recv` delivers in
order, and how the stream ends (`none` = `io.EOF`, `some e` = a transport
error from `Recv`). -/
structure UpScript where
  initErr : Option String
  msgs : List UpMessage
  recvErr : Option String
deriving DecidableEq, Repr

/-- The error wrapping of `up_build`'s initial-call failure (line 108). -/
def wrap_up_build (e : String) : String :=
  "rpc error handling up_build: " ++ e

/-- The error wrapping of `up_build`'s Recv failure (line 117). -/
def wrap_up_build_recv (e : String) : String :=
  "rpc error handling up_build recv: " ++ e

/-- Locations of the goroutine spawned at line 56: it runs `up_build`
(lines 105–121) and then forwards a non-nil error on `errc` and closes
`errc` (lines 57–60). -/
inductive ProdLoc where
  | callRpc
  | recvLoop
  | sendErrc (e : String)
  | closeErrcL
  | terminated
deriving DecidableEq, Repr

/-- Locations of the `UpBuild` main loop (lines 63–78): selecting, or
returned (with the deferred `close(outc)` of line 62 already run). -/
inductive ConsLoc where
  | selecting
  | returnedC (r : Option String)
deriving DecidableEq, Repr

/-- A configuration of the `UpBuild` system. -/
structure UBCfg where
  prod : ProdLoc
  prodMsgs : List UpMessage
  msgcBuf : List UpMessage
  msgcClosed : Bool
  errcClosed : Bool
  cons : ConsLoc
  msgcNilC : Bool
  errcNilC : Bool
  out : List (Option UpSummary)
  outcCloses : Nat
  rpcctxCancelled : Bool
deriving DecidableEq, Repr

/-- The configuration right after `UpBuild` connects and spawns its
goroutine.  `ctx` is the caller's context — and it is discarded: line 52
runs `rpcctx := context.Background()`, so the stream's context starts (and
stays) uncancelled no matter what the caller's context does. -/
def UpBuildStart (ctx : Bool) (script : UpScript) : UBCfg :=
  { prod := .callRpc, prodMsgs := script.msgs, msgcBuf := [],
    msgcClosed := false, errcClosed := false, cons := .selecting,
    msgcNilC := false, errcNilC := false, out := [], outcCloses := 0,
    rpcctxCancelled := false }

/-- All configurations reachable from `c` in one scheduler step. -/
def upBuildNext (script : UpScript) (c : UBCfg) : List UBCfg :=
  -- producer: the up_build goroutine
  (match c.prod with
  | .callRpc =>
    match script.initErr with
    | some e =>
      -- line 107–108: the initial call failed; up_build returns the wrapped
      -- error before its `defer close(outc)` is registered, so msgc stays
      -- open; the wrapper goroutine then blocks on `errc <- err` (line 58)
      [{ c with prod := .sendErrc (wrap_up_build e) }]
    | none => [{ c with prod := .recvLoop }]
  | .recvLoop =>
    if c.rpcctxCancelled then
      -- a cancelled stream context would abort Recv with an error, which
      -- up_build wraps (line 117) after its deferred close(msgc)
      [{ c with msgcClosed := true,
                prod := .sendErrc (wrap_up_build_recv "context canceled") }]
    else
      match c.prodMsgs with
      | m :: rest =>
        -- line 119: outc <- resp, on the capacity-2 msgc; blocks when full
        if c.msgcBuf.length < 2 then
          [{ c with prodMsgs := rest, msgcBuf := c.msgcBuf ++ [m] }]
        else []
      | [] =>
        match script.recvErr with
        | none =>
          -- lines 113–114: io.EOF → return nil; defer close(msgc)
          -- (line 110); the wrapper skips errc and will close it (line 60)
          [{ c with msgcClosed := true, prod := .closeErrcL }]
        | some e =>
          -- lines 116–117: Recv error → return wrapped; defer close(msgc);
          -- the wrapper then blocks on `errc <- err`
          [{ c with msgcClosed := true, prod := .sendErrc (wrap_up_build_recv e) }]
  | .sendErrc _ => []  -- unbuffered send: completes only with the consumer
  | .closeErrcL => [{ c with errcClosed := true, prod := .terminated }]
  | .terminated => [])
  ++
  -- consumer: the UpBuild main loop
  (match c.cons with
  | .returnedC _ => []
  | .selecting =>
    -- loop guard (line 63): both channels nil → exit loop, return nil,
    -- deferred close(outc)
    if c.msgcNilC ∧ c.errcNilC then
      [{ c with cons := .returnedC none, outcCloses := c.outcCloses + 1 }]
    else
      (if ¬c.msgcNilC then
        match c.msgcBuf with
        | m :: rest =>
          -- lines 65–70: a buffered message is ready; forward its summary
          [{ c with msgcBuf := rest, out := c.out ++ [m.GetUpSummary] }]
        | [] =>
          -- receive on a closed, drained channel: ok = false → msgc = nil
          if c.msgcClosed then [{ c with msgcNilC := true }] else []
      else [])
      ++
      (if ¬c.errcNilC then
        (match c.prod with
        | .sendErrc e =>
          -- lines 71–76 with 58: the unbuffered handshake on errc completes;
          -- the main loop returns the error; deferred close(outc) runs
          [{ c with cons := .returnedC (some e), outcCloses := c.outcCloses + 1,
                    prod := .closeErrcL }]
        | _ => [])
        ++
        -- receive on closed errc: ok = false → errc = nil (lines 72–75)
        (if c.errcClosed then [{ c with errcNilC := true }] else [])
      else []))

end DraftRpc

namespace DraftRpc

/-- Worklist exploration of a finite transition system: explores from the
frontier until the fuel runs out, accumulating every configuration seen.
When the returned set is closed under `next` (checked separately in each
theorem) it contains every reachable configuration. -/
def insertNew {α : Type} [DecidableEq α] (p : List α × List α) (d : α) :
    List α × List α :=
  if d ∈ p.2 then p else (p.1 ++ [d], p.2 ++ [d])

def explore {α : Type} [DecidableEq α] (next : α → List α) :
    Nat → List α → List α → List α
  | 0, _, seen => seen
  | _ + 1, [], seen => seen
  | n + 1, c :: fr, seen =>
    let p := (next c).foldl insertNew (fr, seen)
    explore next n p.1 p.2

/-- The set computed by `explore` is closed under `next`. -/
def closedUnder {α : Type} [DecidableEq α] (next : α → List α)
    (seen : List α) : Bool :=
  seen.all (fun c => (next c).all (fun d => decide (d ∈ seen)))

/-- A configuration with no enabled step. -/
def stuckUB (script : UpScript) (c : UBCfg) : Bool :=
  (upBuildNext script c).isEmpty

end DraftRpc

namespace DraftRpc

/-- Sample summaries for the concrete `UpBuild` scenarios. -/
def upS1 : UpSummary := ⟨"stage one", .PENDING⟩

def upS2 : UpSummary := ⟨"stage one", .SUCCESS⟩

/-- Scenario: the stream ends (`io.EOF`) immediately, zero messages. -/
def upScriptEmptyEOF : UpScript := ⟨none, [], none⟩

/-- Scenario: the stream delivers two messages, then `Recv` fails. -/
def upScriptTwoThenErr : UpScript :=
  ⟨none, [.upSummary upS1, .upSummary upS2], some "boom"⟩

/-- Scenario: the stream delivers one message, then ends normally. -/
def upScriptOneMsg : UpScript := ⟨none, [.upSummary upS1], none⟩

/-- Every configuration reachable in the `UpBuild` system on the empty-EOF
script (the set is exact: it starts at the initial configuration, only adds
successors, and is closed under `upBuildNext`). -/
def upBuildReachEmpty : List UBCfg :=
  explore (upBuildNext upScriptEmptyEOF) 64
    [UpBuildStart false upScriptEmptyEOF] [UpBuildStart false upScriptEmptyEOF]

/-- Every configuration reachable on the two-messages-then-error script. -/
def upBuildReachTwoErr : List UBCfg :=
  explore (upBuildNext upScriptTwoThenErr) 64
    [UpBuildStart false upScriptTwoThenErr] [UpBuildStart false upScriptTwoThenErr]

/-- Every configuration reachable on the one-message script when the caller
passed an already-cancelled context (`ctx = true`). -/
def upBuildReachCancelled : List UBCfg :=
  explore (upBuildNext upScriptOneMsg) 64
    [UpBuildStart true upScriptOneMsg] [UpBuildStart true upScriptOneMsg]

/-- A list of configurations is a legal execution: each one steps to the
next. -/
def chainOk {α : Type} [DecidableEq α] (next : α → List α) : List α → Bool
  | [] => true
  | [_] => true
  | a :: b :: rest => decide (b ∈ next a) && chainOk next (b :: rest)

end DraftRpc

/-- C8: `UpBuild` on a stream that returns end-of-stream immediately with
zero messages.  Over every scheduler interleaving (the whole reachable set):
any returned configuration returns `nil` with an empty output log and with
`outc` closed exactly once; every stuck (maximal) configuration has returned
`nil` with both internal channels closed; and a completed run is actually
reached. -/
theorem c8_empty_stream_nil_error :
    (DraftRpc.UpBuildStart false DraftRpc.upScriptEmptyEOF)
        ∈ DraftRpc.upBuildReachEmpty ∧
    DraftRpc.closedUnder (DraftRpc.upBuildNext DraftRpc.upScriptEmptyEOF)
        DraftRpc.upBuildReachEmpty = true ∧
    DraftRpc.upBuildReachEmpty.all (fun c =>
      match c.cons with
      | .returnedC r =>
        decide (r = none) && decide (c.out = []) && decide (c.outcCloses = 1)
      | .selecting => decide (c.outcCloses = 0)) = true ∧
    DraftRpc.upBuildReachEmpty.all (fun c =>
      !(DraftRpc.stuckUB DraftRpc.upScriptEmptyEOF c)
        || (decide (c.cons = .returnedC none) && decide (c.prod = .terminated)
            && decide (c.msgcClosed = true) && decide (c.errcClosed = true))) = true ∧
    DraftRpc.upBuildReachEmpty.any (fun c =>
      decide (c.cons = .returnedC none) && decide (c.out = [])
        && decide (c.outcCloses = 1)) = true := by
  decide

namespace DraftRpc

/-- A legal execution of the `UpBuild` system on the two-messages-then-error
script in which the producer goroutine runs to its error before the main
loop consumes anything: both messages sit in `msgc`'s buffer when the
`select` (lines 64–77) — which does not prioritize `msgc` over `errc` —
takes the ready `errc` case and returns. -/
def upBuildTraceErrFirst : List UBCfg :=
  [UpBuildStart false upScriptTwoThenErr,
   { prod := .recvLoop, prodMsgs := [.upSummary upS1, .upSummary upS2],
     msgcBuf := [], msgcClosed := false, errcClosed := false,
     cons := .selecting, msgcNilC := false, errcNilC := false,
     out := [], outcCloses := 0, rpcctxCancelled := false },
   { prod := .recvLoop, prodMsgs := [.upSummary upS2],
     msgcBuf := [.upSummary upS1], msgcClosed := false, errcClosed := false,
     cons := .selecting, msgcNilC := false, errcNilC := false,
     out := [], outcCloses := 0, rpcctxCancelled := false },
   { prod := .recvLoop, prodMsgs := [],
     msgcBuf := [.upSummary upS1, .upSummary upS2], msgcClosed := false,
     errcClosed := false, cons := .selecting, msgcNilC := false,
     errcNilC := false, out := [], outcCloses := 0, rpcctxCancelled := false },
   { prod := .sendErrc (wrap_up_build_recv "boom"), prodMsgs := [],
     msgcBuf := [.upSummary upS1, .upSummary upS2], msgcClosed := true,
     errcClosed := false, cons := .selecting, msgcNilC := false,
     errcNilC := false, out := [], outcCloses := 0, rpcctxCancelled := false },
   { prod := .closeErrcL, prodMsgs := [],
     msgcBuf := [.upSummary upS1, .upSummary upS2], msgcClosed := true,
     errcClosed := false,
     cons := .returnedC (some (wrap_up_build_recv "boom")), msgcNilC := false,
     errcNilC := false, out := [], outcCloses := 1, rpcctxCancelled := false },
   { prod := .terminated, prodMsgs := [],
     msgcBuf := [.upSummary upS1, .upSummary upS2], msgcClosed := true,
     errcClosed := true,
     cons := .returnedC (some (wrap_up_build_recv "boom")), msgcNilC := false,
     errcNilC := false, out := [], outcCloses := 1, rpcctxCancelled := false }]

end DraftRpc

/-- C4 counterexample: on the stream that delivers two messages and then
errors, there is a legal scheduler interleaving of `UpBuild` — exhibited as
an explicit step-by-step execution — in which the operation returns the
wrapped receive error with *zero* messages observed by the caller: the two
delivered messages are still sitting in `msgc`'s buffer when the `select`
takes the `errc` case, and the deferred `close(outc)` runs without draining
them.  This refutes the claim that both in-flight messages are always
observed before the error is returned. -/
theorem c4_error_preempts_inflight_messages :
    DraftRpc.upBuildTraceErrFirst.head?
      = some (DraftRpc.UpBuildStart false DraftRpc.upScriptTwoThenErr) ∧
    DraftRpc.chainOk (DraftRpc.upBuildNext DraftRpc.upScriptTwoThenErr)
      DraftRpc.upBuildTraceErrFirst = true ∧
    DraftRpc.upBuildTraceErrFirst.getLast?
      = some { prod := .terminated, prodMsgs := [],
               msgcBuf := [.upSummary DraftRpc.upS1, .upSummary DraftRpc.upS2],
               msgcClosed := true, errcClosed := true,
               cons := .returnedC (some (DraftRpc.wrap_up_build_recv "boom")),
               msgcNilC := false, errcNilC := false, out := [],
               outcCloses := 1, rpcctxCancelled := false } := by
  decide

/-- C4 (amended): on the stream that delivers two messages and then errors,
over every scheduler interleaving: the error is captured and signaled to the
caller exactly once as the wrapped receive error, the output channel is
closed exactly once, and the caller observes an in-order prefix of the
delivered messages (possibly all of them — the claim's schedule in which
both messages are observed and then the error returned is also realizable —
but possibly fewer, since the `select` may take the ready error before the
buffered messages).  Every maximal execution ends with the operation
returned. -/
theorem c4_amended_error_once_prefix_delivery :
    (DraftRpc.UpBuildStart false DraftRpc.upScriptTwoThenErr)
        ∈ DraftRpc.upBuildReachTwoErr ∧
    DraftRpc.closedUnder (DraftRpc.upBuildNext DraftRpc.upScriptTwoThenErr)
        DraftRpc.upBuildReachTwoErr = true ∧
    DraftRpc.upBuildReachTwoErr.all (fun c =>
      match c.cons with
      | .returnedC r =>
        decide (r = some (DraftRpc.wrap_up_build_recv "boom"))
          && decide (c.outcCloses = 1)
          && (decide (c.out = []) || decide (c.out = [some DraftRpc.upS1])
              || decide (c.out = [some DraftRpc.upS1, some DraftRpc.upS2]))
      | .selecting => decide (c.outcCloses = 0)) = true ∧
    DraftRpc.upBuildReachTwoErr.any (fun c =>
      decide (c.cons = .returnedC (some (DraftRpc.wrap_up_build_recv "boom")))
        && decide (c.out = [some DraftRpc.upS1, some DraftRpc.upS2])) = true ∧
    DraftRpc.upBuildReachTwoErr.all (fun c =>
      !(DraftRpc.stuckUB DraftRpc.upScriptTwoThenErr c)
        || (match c.cons with
            | .returnedC _ => true
            | .selecting => false)) = true := by
  decide

/-- C2: the caller's context is discarded by `UpBuild`: line 52 runs
`rpcctx := context.Background()` and passes that fresh background context to
the stream, so the initial configuration is literally independent of the
caller's `ctx`, the stream's context is never cancelled in any reachable
configuration, and — with the caller's context already cancelled — the
operation still runs to normal completion, delivering the message and
returning `nil`.  Cancellation neither aborts the underlying work nor
unblocks anything. -/
theorem c2_cancellation_never_propagates :
    (∀ ctx : Bool,
      DraftRpc.UpBuildStart ctx DraftRpc.upScriptOneMsg
        = DraftRpc.UpBuildStart false DraftRpc.upScriptOneMsg) ∧
    ((DraftRpc.UpBuildStart true DraftRpc.upScriptOneMsg)
        ∈ DraftRpc.upBuildReachCancelled ∧
    DraftRpc.closedUnder (DraftRpc.upBuildNext DraftRpc.upScriptOneMsg)
        DraftRpc.upBuildReachCancelled = true ∧
    DraftRpc.upBuildReachCancelled.all
      (fun c => decide (c.rpcctxCancelled = false)) = true ∧
    DraftRpc.upBuildReachCancelled.all (fun c =>
      match c.cons with
      | .returnedC r => decide (r = none) && decide (c.out = [some DraftRpc.upS1])
      | .selecting => true) = true ∧
    DraftRpc.upBuildReachCancelled.any (fun c =>
      decide (c.cons = .returnedC none)
        && decide (c.out = [some DraftRpc.upS1])) = true) :=
  ⟨fun _ => rfl, by decide⟩

namespace DraftRpc

/-!
## The `UpStream` client operation (client implementation, lines 83–103 and 123–164)

`UpStream` spawns a forwarding goroutine that ranges over `msgc` and closes
`outc` when `msgc` closes (lines 94–101), then calls `up_stream`.
`up_stream` opens the stream, spawns a receive goroutine (lines 136–149:
`Recv` until `io.EOF` → `close(done)`, or an error → `errc <- err`), runs
the send loop (lines 150–163), and on any return path runs the deferred
block (lines 130–135): `stream.CloseSend()`, `<-done`, `close(recv)`,
`close(errc)`.  Note the receive goroutine closes `done` *only* on the
`io.EOF` path — on its error path it returns after the `errc` handshake
without closing `done`.
-/

/-- The error wrapping of the receive goroutine (line 144). -/
def wrap_recv_summary (e : String) : String :=
  "failed to receive a summary: " ++ e

/-- The error wrapping of the send loop (line 158). -/
def wrap_send_up (e : String) : String :=
  "failed to send an up message: " ++ e

/-- Locations of the `up_stream` main goroutine: the send-loop `select`
(lines 150–163), the four statements of the deferred block (lines 130–135),
and returned. -/
inductive MLoc where
  | loopM
  | dCloseSend
  | dWaitDone
  | dCloseRecv
  | dCloseErrc
  | returnedM
deriving DecidableEq, Repr

/-- Locations of the receive goroutine (lines 136–149). -/
inductive RLoc where
  | recvLoopR
  | sendErrcR (e : String)
  | exitedR
deriving DecidableEq, Repr

/-- A configuration of the `UpStream` system: the main goroutine (with the
value it will return once its defers finish), the receive goroutine, the
forwarding goroutine of `UpStream` itself (ranging over `msgc` until it is
closed, then closing `outc`), and the channel flags. -/
structure USCfg where
  mainLoc : MLoc
  retM : Option (Option String)
  recvLoc : RLoc
  recvMsgs : List UpMessage
  sendReqs : Nat
  sendClosed : Bool
  doneClosed : Bool
  errcClosed : Bool
  recvClosed : Bool
  closeSendDone : Bool
  fRanging : Bool
  outcClosedS : Bool
  outS : List UpSummary
deriving DecidableEq, Repr

/-- The script for one `UpStream` call: how `Recv` behaves after the queued
messages (`none` = `io.EOF`, `some e` = error), and whether `stream.Send`
fails. -/
structure USScript where
  recvErr : Option String
  sendErr : Option String
deriving DecidableEq, Repr

/-- The configuration right after `up_stream` opened the stream and spawned
the receive goroutine: `msgs` are the messages the server will deliver,
`reqs` how many requests the caller will feed, `sendClosed` whether the
caller has already closed the request channel. -/
def UpStreamStart (msgs : List UpMessage) (reqs : Nat) (sendClosed : Bool) : USCfg :=
  { mainLoc := .loopM, retM := none, recvLoc := .recvLoopR, recvMsgs := msgs,
    sendReqs := reqs, sendClosed := sendClosed, doneClosed := false,
    errcClosed := false, recvClosed := false, closeSendDone := false,
    fRanging := true, outcClosedS := false, outS := [] }

/-- All configurations reachable from `c` in one scheduler step. -/
def upStreamNext (script : USScript) (c : USCfg) : List USCfg :=
  -- receive goroutine (lines 136–149)
  (match c.recvLoc with
  | .recvLoopR =>
    match c.recvMsgs with
    | m :: rest =>
      -- line 147: `recv <- m` — an unbuffered handshake with the forwarding
      -- goroutine, which then republishes the summary payload on outc
      if c.fRanging then
        [{ c with recvMsgs := rest,
                  outS := c.outS ++ (match m.GetUpSummary with
                    | some s => [s]
                    | none => []) }]
      else []
    | [] =>
      match script.recvErr with
      | none =>
        -- lines 139–141: io.EOF → close(done); return
        [{ c with doneClosed := true, recvLoc := .exitedR }]
      | some e =>
        -- lines 143–145: error → block on `errc <- wrapped`; `done` is
        -- never closed on this path
        [{ c with recvLoc := .sendErrcR (wrap_recv_summary e) }]
  | .sendErrcR _ => []  -- unbuffered: completes only with the main loop
  | .exitedR => [])
  ++
  -- main goroutine: send loop, then the deferred block
  (match c.mainLoc with
  | .loopM =>
    -- line 152: the request channel was closed by the caller → return nil
    (if c.sendClosed ∧ c.sendReqs = 0 then
      [{ c with retM := some none, mainLoc := .dCloseSend }]
    else [])
    ++
    -- lines 152–159: a request is available → stream.Send
    (if c.sendReqs ≠ 0 then
      match script.sendErr with
      | none => [{ c with sendReqs := c.sendReqs - 1 }]
      | some e =>
        [{ c with retM := some (some (wrap_send_up e)), mainLoc := .dCloseSend }]
    else [])
    ++
    -- lines 160–161 with 144: the errc handshake → return the error
    (match c.recvLoc with
    | .sendErrcR e =>
      [{ c with retM := some (some e), recvLoc := .exitedR,
                mainLoc := .dCloseSend }]
    | _ => [])
  | .dCloseSend =>
    -- line 131
    [{ c with closeSendDone := true, mainLoc := .dWaitDone }]
  | .dWaitDone =>
    -- line 132: `<-done` — enabled only once the receive goroutine closed it
    if c.doneClosed then [{ c with mainLoc := .dCloseRecv }] else []
  | .dCloseRecv =>
    -- line 133
    [{ c with recvClosed := true, mainLoc := .dCloseErrc }]
  | .dCloseErrc =>
    -- line 134
    [{ c with errcClosed := true, mainLoc := .returnedM }]
  | .returnedM => [])
  ++
  -- forwarding goroutine of UpStream (lines 94–101): its range ends when
  -- msgc is closed and drained, then it closes outc
  (if c.fRanging ∧ c.recvClosed then
    [{ c with fRanging := false, outcClosedS := true }]
  else [])

/-- A configuration of the `UpStream` system with no enabled step. -/
def stuckUS (script : USScript) (c : USCfg) : Bool :=
  (upStreamNext script c).isEmpty

/-- The receive-error scenario: the caller holds the request channel open
with no request pending, and the very first `Recv` fails. -/
def usScriptRecvErr : USScript := ⟨some "boom", none⟩

/-- Every configuration reachable in that scenario. -/
def upStreamReachRecvErr : List USCfg :=
  explore (upStreamNext usScriptRecvErr) 64
    [UpStreamStart [] 0 false] [UpStreamStart [] 0 false]

end DraftRpc

/-- C3: on the receive-error path, `up_stream` never returns at all — let
alone returns exactly one error with its channels closed.  The receive
goroutine's error path (lines 143–145) hands the wrapped error to the main
loop over `errc` and exits *without closing `done`*; the main loop then runs
its deferred block whose `<-done` (line 132) blocks forever.  Over the whole
reachable set: no configuration ever has the main goroutine returned, `recv`
(`msgc`), `errc` and `outc` are never closed, and every maximal execution is
stuck with the main goroutine at `<-done`, holding the wrapped receive
error it will never deliver — a deadlock, and `UpStream`'s output channel is
never closed either. -/
theorem c3_recv_error_deadlocks_before_return :
    (DraftRpc.UpStreamStart [] 0 false) ∈ DraftRpc.upStreamReachRecvErr ∧
    DraftRpc.closedUnder (DraftRpc.upStreamNext DraftRpc.usScriptRecvErr)
        DraftRpc.upStreamReachRecvErr = true ∧
    DraftRpc.upStreamReachRecvErr.all (fun c =>
      decide (c.mainLoc ≠ .returnedM) && decide (c.outcClosedS = false)
        && decide (c.recvClosed = false) && decide (c.errcClosed = false)
        && decide (c.doneClosed = false)) = true ∧
    DraftRpc.upStreamReachRecvErr.all (fun c =>
      !(DraftRpc.stuckUS DraftRpc.usScriptRecvErr c)
        || (decide (c.mainLoc = .dWaitDone)
            && decide (c.retM
                = some (some (DraftRpc.wrap_recv_summary "boom")))
            && decide (c.recvLoc = .exitedR))) = true ∧
    DraftRpc.upStreamReachRecvErr.any
      (fun c => DraftRpc.stuckUS DraftRpc.usScriptRecvErr c) = true := by
  decide
